import Mathlib

/-!
Verification of the flux-kcl-operator reconciliation core.

This file gives a shallow embedding of the Rust sources of the
flux-kcl-operator repository (crates `crd`, `fluxcd`, `kcl-client` and
`operator-binary`) and proves properties of the embedded functions.

Modelling conventions:
* `HashMap<String, String>` and `BTreeMap<String, String>` are modelled as
  association lists `List (String × String)` with insert-or-replace update
  (`mapInsertKV`) and lookup (`mapLookup`); `HashSet<Gvk>` is modelled as a
  `List Gvk` updated with a membership-checking insert (`inventory_insert`).
* Asynchronous Kubernetes API calls are modelled by explicit parameters:
  the result of the fresh GET done by `update_status` is the `current`
  argument, the identities returned by the per-document applies of a
  successful pass are the `applied` argument, and the cluster state seen by
  the garbage collector is a `ClusterEnv` of lookup functions.
* The write requests a reconcile pass issues (server-side applies, status
  patches, deletions, finalizer patches, events) are reified as a list of
  `WriteAction` values in the order the code issues them, on the successful
  control path.
-/

namespace FluxKclOperator

/-- An inventory identity, from `crd/src/lib.rs` (`struct Gvk`): the tuple
identifying a cluster object for deletion. -/
structure Gvk where
  name : String
  group : String
  version : String
  kind : String
  namespc : Option String
deriving DecidableEq, Repr

/-- A status condition, from `k8s_openapi` `Condition` (only the fields the
operator carries; the operator never inspects them). -/
structure Condition where
  type_ : String
  status : String
  reason : String
  message : String
  lastTransitionTime : String
deriving DecidableEq, Repr

/-- Status of a KclInstance, from `crd/src/lib.rs` (`struct KclInstanceStatus`). -/
structure KclInstanceStatus where
  inventory : List Gvk
  observed_generation : Int
  last_applied_revision : Option String
  last_attempted_revision : Option String
  conditions : Option (List Condition)
deriving DecidableEq, Repr

/-- The `Default` instance derived for `KclInstanceStatus` in Rust: empty
inventory, zero generation, absent revisions and conditions. -/
def defaultStatus : KclInstanceStatus :=
  { inventory := []
  , observed_generation := 0
  , last_applied_revision := none
  , last_attempted_revision := none
  , conditions := none }

/-- Kind of an arguments reference, from `ArgumentsReferenceKind` as used in
`operator-binary/src/instance_ext.rs`. -/
inductive ArgumentsReferenceKind where
  | Secret
  | ConfigMap
deriving DecidableEq, Repr

/-- A reference to a Secret or ConfigMap carrying compiler arguments, from
`crd/src/lib.rs` (`struct ArgumentsReference`). -/
structure ArgumentsReference where
  name : String
  kind : ArgumentsReferenceKind
  arguments_key : Option String
  target_path : Option String
  optional : Bool
deriving DecidableEq, Repr

/-- Compiler configuration on the spec, from `crd/src/lib.rs`
(`struct KclInstanceConfig`); `arguments` is a `HashMap<String, String>`
modelled as an association list. -/
structure KclInstanceConfig where
  vendor : Bool
  sort_keys : Bool
  show_hidden : Bool
  arguments : List (String × String)
  arguments_from : List ArgumentsReference
deriving DecidableEq, Repr

/-- Source reference on the spec, from `k8s_openapi` `ObjectReference`
(the fields the operator reads: `kind`, `name`, `namespace`). -/
structure ObjectReference where
  kind : Option String
  name : Option String
  namespc : Option String
deriving DecidableEq, Repr

/-- The KclInstance spec, from `crd/src/lib.rs` (`struct KclInstanceSpec`). -/
structure KclInstanceSpec where
  source : ObjectReference
  path : String
  config : KclInstanceConfig
  suspend : Option Bool
  interval : Option String
deriving DecidableEq, Repr

/-- Object metadata, from `k8s_openapi` `ObjectMeta` (the fields the
operator reads or writes: name, namespace, generation, deletion timestamp,
finalizers and labels). -/
structure ObjectMeta where
  name : Option String
  namespc : Option String
  generation : Option Int
  deletion_timestamp : Option String
  finalizers : Option (List String)
  labels : Option (List (String × String))
deriving DecidableEq, Repr

/-- The KclInstance custom resource, from `crd/src/lib.rs`. -/
structure KclInstance where
  metadata : ObjectMeta
  spec : KclInstanceSpec
  status : Option KclInstanceStatus
deriving DecidableEq, Repr

/-- Reconcile action classifier result, from `operator-binary/src/controller.rs`
(`enum KclInstanceAction`). -/
inductive KclInstanceAction where
  | Create
  | Delete
  | Update
  | NoOp
deriving DecidableEq, Repr

/-- The condition `finalizers.as_ref().map_or(true, |f| f.is_empty())` used by
`determine_action` in `operator-binary/src/controller.rs`. -/
def finalizersEmpty (inst : KclInstance) : Bool :=
  match inst.metadata.finalizers with
  | none => true
  | some fs => fs.isEmpty

/-- Rust `determine_action` from `operator-binary/src/controller.rs`: classify the
reconcile action for a KclInstance.  `metadata.generation.unwrap_or(0)` is
`(generation).getD 0`. -/
def determine_action (inst : KclInstance) : KclInstanceAction :=
  if inst.metadata.deletion_timestamp.isSome then
    KclInstanceAction.Delete
  else if finalizersEmpty inst then
    KclInstanceAction.Create
  else
    match inst.status with
    | some st =>
        if st.observed_generation ≠ inst.metadata.generation.getD 0 then
          KclInstanceAction.Update
        else
          KclInstanceAction.NoOp
    | none => KclInstanceAction.NoOp

/-- Lookup in an association-list map (model of `HashMap` / `BTreeMap` get). -/
def mapLookup (m : List (String × String)) (k : String) : Option String :=
  match m with
  | [] => none
  | (k', v) :: rest => if k' = k then some v else mapLookup rest k

/-- Insert-or-replace in an association-list map (model of `HashMap::insert`
and of a duplicate key in a `BTreeMap` chain, where the later value wins). -/
def mapInsertKV (m : List (String × String)) (k : String) (v : String) :
    List (String × String) :=
  match m with
  | [] => [(k, v)]
  | (k', v') :: rest =>
      if k' = k then (k, v) :: rest else (k', v') :: mapInsertKV rest k v

/-- Extend a map with all pairs of another map, later pairs overriding
(model of `HashMap::extend`). -/
def mapExtend (m : List (String × String)) (other : List (String × String)) :
    List (String × String) :=
  other.foldl (fun acc kv => mapInsertKV acc kv.1 kv.2) m

/-- Rust `OPERATOR_MANAGER` from `operator-binary/src/engine.rs`. -/
def OPERATOR_MANAGER : String := "kcl-instance-controller"

/-- The manager label key used by `patch_labels` and `is_managed_by` in
`operator-binary/src/utils.rs`. -/
def managedByKey : String := "app.kubernetes.io/managed-by"

/-- Rust `patch_labels` from `operator-binary/src/utils.rs`: merge the manager
label into the (possibly absent) label map, keeping all other entries. -/
def patch_labels (labels : Option (List (String × String))) (manager : String) :
    Option (List (String × String)) :=
  match labels with
  | some ls => some (mapInsertKV ls managedByKey manager)
  | none => some (mapInsertKV [] managedByKey manager)

/-- Rust `is_managed_by` from `operator-binary/src/utils.rs`: true iff the metadata
labels carry the manager label with exactly the given value. -/
def is_managed_by (operator_name : String) (meta : ObjectMeta) : Bool :=
  match meta.labels with
  | some ls =>
      match mapLookup ls managedByKey with
      | some managed_by => managed_by = operator_name
      | none => false
  | none => false

/-- Type metadata of a dynamic object (`TypeMeta`): apiVersion and kind. -/
structure TypeMeta where
  api_version : String
  kind : String
deriving DecidableEq, Repr

/-- A decoded YAML document, from `kube::api::DynamicObject` (its type
metadata and object metadata; the payload data is not inspected by the
operator's control logic). -/
structure DynamicObject where
  types : Option TypeMeta
  metadata : ObjectMeta
deriving DecidableEq, Repr

/-- The object-shaping part of `Engine::apply` in
`operator-binary/src/engine.rs`: the object sent to the server-side apply is
the input object with `patch_labels` applied to its labels (the namespace
default is used only to scope the API client, the body is otherwise
unchanged). -/
def applyObj (obj : DynamicObject) : DynamicObject :=
  { obj with
    metadata := { obj.metadata with
                  labels := patch_labels obj.metadata.labels OPERATOR_MANAGER } }

/-- Patch content type of a `kube::api::Patch` value. -/
inductive PatchType where
  | apply
  | merge
  | json
deriving DecidableEq, Repr

/-- A status write request as issued by `Engine::update_status`: the target
subresource, the patch content type, the `PatchParams` field manager and
validation flag, and the full patch body. -/
structure StatusWrite where
  subresource : String
  patchType : PatchType
  fieldManager : Option String
  validationStrict : Bool
  body : KclInstance
deriving DecidableEq, Repr

/-- Rust `Engine::update_status` from `operator-binary/src/engine.rs`.  The
`current` argument is the result of the fresh `api.get` the function performs;
the body patched onto the `/status` subresource is that fresh object with its
status replaced by the given status carrying `observed_generation :=
generation`.  The patch is `Patch::Merge` issued with
`PatchParams::apply(OPERATOR_MANAGER).validation_strict()`. -/
def update_status (current : KclInstance) (status : KclInstanceStatus)
    (generation : Int) : StatusWrite :=
  { subresource := "status"
  , patchType := PatchType.merge
  , fieldManager := some OPERATOR_MANAGER
  , validationStrict := true
  , body := { current with
              status := some { status with observed_generation := generation } } }

/-- Rust `HashSet<Gvk>::insert` on the list model: append iff not yet present. -/
def inventory_insert (inv : List Gvk) (g : Gvk) : List Gvk :=
  if g ∈ inv then inv else inv ++ [g]

/-- Rust `process_instance` from `operator-binary/src/controller.rs`, on the
successful control path.  The download, render and YAML-split steps are
abstracted by the `applied` parameter: the identities returned by the
per-document `Engine::apply` calls of the pass, in document order.  The
`current` parameter is the fresh GET performed inside `update_status`.
Returns the status write the pass issues, or `none` when the instance is
suspended or has no namespace (in which cases no write is issued). -/
def process_instance (inst : KclInstance) (current : KclInstance)
    (applied : List Gvk) : Option StatusWrite :=
  if inst.spec.suspend.getD false then
    none
  else if inst.metadata.namespc.isNone then
    none
  else
    let status0 := inst.status.getD defaultStatus
    let generation := inst.metadata.generation.getD 0
    let status1 :=
      { status0 with inventory := applied.foldl inventory_insert status0.inventory }
    some (update_status current status1 generation)

/-- The inventory inside the status body of an optional status write
(empty when no write or no status is present). -/
def writtenInventory (w : Option StatusWrite) : List Gvk :=
  match w with
  | some sw =>
      match sw.body.status with
      | some st => st.inventory
      | none => []
  | none => []

/-- The status inside the body of an optional status write. -/
def writtenStatus (w : Option StatusWrite) : Option KclInstanceStatus :=
  match w with
  | some sw => sw.body.status
  | none => none

/-- A write request issued against the cluster by the reconciler: a
server-side apply of a rendered manifest, a status patch, an object deletion,
a finalizer patch (with the full finalizer list it sets), or an event
publication (with its reason). -/
inductive WriteAction where
  | applyManifest (g : Gvk)
  | patchStatus
  | deleteObject (g : Gvk)
  | patchFinalizer (finalizers : List String)
  | publishEvent (reason : String)
deriving DecidableEq, Repr

/-- The cluster state seen by `Engine::delete_resource`: whether discovery
resolves a GVK, and the metadata returned by a successful GET of the object
(`none` when the GET fails, including not-found). -/
structure ClusterEnv where
  resolve : Gvk → Bool
  getObj : Gvk → Option ObjectMeta

/-- Rust `Engine::delete_resource` from `operator-binary/src/engine.rs`, as the
list of deletions it issues for one inventory item: skip when discovery does
not resolve the GVK; when the GET succeeds and the object is not managed by
`OPERATOR_MANAGER`, skip with a warning; otherwise issue the DELETE (a failed
GET still proceeds to the DELETE, whose own error is logged and ignored). -/
def delete_resource_writes (env : ClusterEnv) (item : Gvk) : List WriteAction :=
  if env.resolve item then
    match env.getObj item with
    | some meta =>
        if is_managed_by OPERATOR_MANAGER meta then
          [WriteAction.deleteObject item]
        else
          []
    | none => [WriteAction.deleteObject item]
  else
    []

/-- Rust `Engine::cleanup` from `operator-binary/src/engine.rs`, as the list of
deletions it issues: nothing when suspended; an error (hence no writes) when
the instance has no status; otherwise `delete_resource` per inventory item. -/
def cleanup_writes (inst : KclInstance) (env : ClusterEnv) : List WriteAction :=
  if inst.spec.suspend.getD false then
    []
  else
    match inst.status with
    | none => []
    | some st => st.inventory.flatMap (delete_resource_writes env)

/-- The finalizer string set by `finalizer::add` in
`operator-binary/src/finalizer.rs`. -/
def finalizerString : String := "kcl.evrone.com/finalizer"

/-- Rust `process_instance` as the list of write requests it issues on the
successful control path: nothing when suspended or when the namespace is
missing; otherwise one apply per rendered document followed by the status
patch. -/
def process_instance_writes (inst : KclInstance) (applied : List Gvk) :
    List WriteAction :=
  if inst.spec.suspend.getD false then
    []
  else if inst.metadata.namespc.isNone then
    []
  else
    applied.map WriteAction.applyManifest ++ [WriteAction.patchStatus]

/-- Rust `reconcile` from `operator-binary/src/controller.rs`, as the list of
write requests issued on the successful control path of each branch of the
action match: Create publishes "Creating", patches the finalizer onto the
resource, runs the pipeline and publishes "Ready"; Update runs the pipeline;
Delete runs cleanup (whose error, if any, is only logged), patches the
finalizer list to empty and publishes "Deleted"; NoOp issues nothing. -/
def reconcile_writes (inst : KclInstance) (env : ClusterEnv)
    (applied : List Gvk) : List WriteAction :=
  match determine_action inst with
  | KclInstanceAction.Create =>
      WriteAction.publishEvent "Creating"
        :: WriteAction.patchFinalizer [finalizerString]
        :: (process_instance_writes inst applied
            ++ [WriteAction.publishEvent "Ready"])
  | KclInstanceAction.Update => process_instance_writes inst applied
  | KclInstanceAction.Delete =>
      cleanup_writes inst env
        ++ [WriteAction.patchFinalizer [], WriteAction.publishEvent "Deleted"]
  | KclInstanceAction.NoOp => []

/-- Whether a write action belongs to the pipeline write path (manifest
apply, status patch, object deletion), as opposed to finalizer patches and
event publications. -/
def isPipelineWrite : WriteAction → Bool
  | WriteAction.applyManifest _ => true
  | WriteAction.patchStatus => true
  | WriteAction.deleteObject _ => true
  | WriteAction.patchFinalizer _ => false
  | WriteAction.publishEvent _ => false

/-- The effect on the resource's metadata of the JSON merge patch
`{"metadata": {"finalizers": finalizers}}` sent by `patch_finalizer` in
`operator-binary/src/finalizer.rs`: a merge patch replaces an array member
wholesale, so the finalizers list becomes exactly the given list. -/
def patch_finalizer (meta : ObjectMeta) (finalizers : List String) : ObjectMeta :=
  { meta with finalizers := some finalizers }

/-- Rust `finalizer::add` from `operator-binary/src/finalizer.rs`: patch the
finalizer list to exactly `["kcl.evrone.com/finalizer"]`. -/
def Finalizer.add (meta : ObjectMeta) : ObjectMeta :=
  patch_finalizer meta [finalizerString]

/-- Rust `finalizer::delete` from `operator-binary/src/finalizer.rs`: patch the
finalizer list to the empty list. -/
def Finalizer.delete (meta : ObjectMeta) : ObjectMeta :=
  patch_finalizer meta []

/-- A parsed absolute URL as produced by `url::Url::parse` on a valid
hierarchical URL: scheme, authority (userinfo, host and port), path, query
and fragment. -/
structure ParsedUrl where
  scheme : String
  authority : String
  path : String
  query : Option String
  fragment : Option String
deriving DecidableEq, Repr

/-- Rust `build_url` from `fluxcd/src/downloader/mod.rs` (the copy in
`operator-binary/src/fetcher.rs` is identical), on already-parsed URLs: with
no override host return the URL unchanged; with an override host, start from
the parsed override and transfer the original URL's path (`set_path`) and
query (`set_query`) onto it. -/
def build_url (u : ParsedUrl) (override_host : Option ParsedUrl) : ParsedUrl :=
  match override_host with
  | none => u
  | some h => { h with path := u.path, query := u.query }

/-- Outcome class of a Kubernetes GET used by argument resolution: the
object was not found, or some other (structural or transient) error. -/
inductive LookupError where
  | notFound
  | other
deriving DecidableEq, Repr

/-- Loop body of `InstanceExt::get_all_args` from
`operator-binary/src/instance_ext.rs`: walk the `argumentsFrom` references in
order; on a successful fetch extend the accumulated map with the fetched
pairs; on any fetch error, skip the reference when it is optional and
otherwise fail with `MissingArguments` carrying the reference name. -/
def getAllArgsLoop
    (fetch : ArgumentsReference → Except LookupError (List (String × String)))
    (acc : List (String × String)) :
    List ArgumentsReference → Except String (List (String × String))
  | [] => Except.ok acc
  | r :: rs =>
      match fetch r with
      | Except.ok m => getAllArgsLoop fetch (mapExtend acc m) rs
      | Except.error _ =>
          if r.optional then getAllArgsLoop fetch acc rs
          else Except.error r.name

/-- Rust `InstanceExt::get_all_args` from `operator-binary/src/instance_ext.rs`:
start from `spec.config.arguments` and fold the `argumentsFrom` references
over it.  The Kubernetes GETs of Secrets and ConfigMaps (and the extraction
of their data into string pairs) are abstracted by the `fetch` parameter. -/
def get_all_args
    (fetch : ArgumentsReference → Except LookupError (List (String × String)))
    (inst : KclInstance) : Except String (List (String × String)) :=
  getAllArgsLoop fetch inst.spec.config.arguments inst.spec.config.arguments_from

/-- A Flux source artifact, from `fluxcd/src/types` (`Artifact` status
fields the operator reads or that identify the artifact). -/
structure Artifact where
  url : String
  revision : String
  path : String
  lastUpdateTime : String
  digest : Option String
deriving DecidableEq, Repr

/-- Rust `FluxSourceArtefact` from `fluxcd/src/types/mod.rs`: the artifact of a
GitRepository or of an OCIRepository source. -/
inductive FluxSourceArtefact where
  | git (a : Artifact)
  | oci (a : Artifact)
deriving DecidableEq, Repr

/-- Rust `FluxSourceArtefact::url` from `fluxcd/src/types/mod.rs`. -/
def FluxSourceArtefact.url : FluxSourceArtefact → String
  | FluxSourceArtefact.git a => a.url
  | FluxSourceArtefact.oci a => a.url

/-- Modelled from the spec: `ArtifactRef` exposes `revision()`; the source
crate declares the `revision` field on the artifact status but defines no
`revision()` method on `FluxSourceArtefact` and never reads the field. -/
def FluxSourceArtefact.revision : FluxSourceArtefact → String
  | FluxSourceArtefact.git a => a.revision
  | FluxSourceArtefact.oci a => a.revision

/-- The compiler invocation assembled by `Engine::render`
(`operator-binary/src/engine.rs`) together with `ModClient::run`
(`kcl-client/src/lib.rs`): the working directory is the artifact directory
joined with `spec.path`, and the argument map handed to `exec_program` is
exactly `spec.config.arguments`. -/
structure CompilerInvocation where
  work_dir : String
  args : List (String × String)
deriving DecidableEq, Repr

/-- Rust `Engine::render` from `operator-binary/src/engine.rs`, as the compiler
invocation it performs: `ModClient::new(work_dir.join(&instance.spec.path))`
then `run(metadata, &instance.spec.config.arguments)` — the arguments passed
to the compiler are `spec.config.arguments`, with no call to
`get_all_args`. -/
def render_invocation (inst : KclInstance) (work_dir : String) :
    CompilerInvocation :=
  { work_dir := work_dir ++ "/" ++ inst.spec.path
  , args := inst.spec.config.arguments }

/-- Truth of an Except value being a success. -/
def exceptOk {ε α : Type} : Except ε α → Bool
  | Except.ok _ => true
  | Except.error _ => false

/-- Sample identity of a Deployment named a. -/
def gvkA : Gvk :=
  { name := "a", group := "apps", version := "v1", kind := "Deployment"
  , namespc := some "app" }

/-- Sample identity of a Service named b. -/
def gvkB : Gvk :=
  { name := "b", group := "", version := "v1", kind := "Service"
  , namespc := some "app" }

/-- Baseline metadata of a live KclInstance named ki1 in namespace app with
generation 1 and the operator finalizer present. -/
def metaBase : ObjectMeta :=
  { name := some "ki1", namespc := some "app", generation := some 1
  , deletion_timestamp := none, finalizers := some [finalizerString]
  , labels := none }

/-- Empty compiler configuration. -/
def configEmpty : KclInstanceConfig :=
  { vendor := false, sort_keys := false, show_hidden := false
  , arguments := [], arguments_from := [] }

/-- Sample GitRepository source reference. -/
def sourceGit : ObjectReference :=
  { kind := some "GitRepository", name := some "g1", namespc := none }

/-- Baseline spec pointing at a GitRepository with an empty configuration. -/
def specBase : KclInstanceSpec :=
  { source := sourceGit, path := "modules/web", config := configEmpty
  , suspend := none, interval := none }

/-- Membership in a single set-insert. -/
theorem mem_inventory_insert (inv : List Gvk) (a g : Gvk) :
    g ∈ inventory_insert inv a ↔ g ∈ inv ∨ g = a := by
  unfold inventory_insert
  by_cases h : a ∈ inv
  · simp only [if_pos h]
    constructor
    · exact fun hg => Or.inl hg
    · rintro (hg | rfl)
      · exact hg
      · exact h
  · simp only [if_neg h, List.mem_append, List.mem_singleton]

/-- Membership in a fold of set-inserts: exactly the old members and the
inserted elements. -/
theorem mem_foldl_inventory_insert (l : List Gvk) :
    ∀ (inv : List Gvk) (g : Gvk),
      g ∈ l.foldl inventory_insert inv ↔ g ∈ inv ∨ g ∈ l := by
  induction l with
  | nil => intro inv g; simp
  | cons a as ih =>
      intro inv g
      rw [List.foldl_cons, ih, mem_inventory_insert, List.mem_cons]
      tauto

/-- Lookup of the inserted key returns the inserted value. -/
theorem mapLookup_mapInsertKV_self (m : List (String × String))
    (k v : String) : mapLookup (mapInsertKV m k v) k = some v := by
  induction m with
  | nil => simp [mapInsertKV, mapLookup]
  | cons kv rest ih =>
      unfold mapInsertKV
      by_cases h : kv.1 = k
      · simp only [h, if_pos rfl]
        simp [mapLookup]
      · simp only [if_neg h]
        simp [mapLookup, h, ih]

/-- Lookup of a different key is unchanged by an insert. -/
theorem mapLookup_mapInsertKV_ne (m : List (String × String))
    (k v q : String) (h : q ≠ k) :
    mapLookup (mapInsertKV m k v) q = mapLookup m q := by
  induction m with
  | nil => simp [mapInsertKV, mapLookup, Ne.symm h]
  | cons kv rest ih =>
      unfold mapInsertKV
      by_cases hk : kv.1 = k
      · simp only [if_pos hk]
        have h2 : ¬(k = q) := Ne.symm h
        have h3 : ¬(kv.1 = q) := by rw [hk]; exact h2
        simp [mapLookup, h2, h3]
      · simp only [if_neg hk]
        by_cases hq : kv.1 = q
        · simp [mapLookup, hq]
        · simp [mapLookup, hq, ih]

/-- Unfolding of the argument-resolution loop on a successful fetch. -/
theorem getAllArgsLoop_cons_ok
    (fetch : ArgumentsReference → Except LookupError (List (String × String)))
    (acc : List (String × String)) (r : ArgumentsReference)
    (rs : List ArgumentsReference) (m : List (String × String))
    (hf : fetch r = Except.ok m) :
    getAllArgsLoop fetch acc (r :: rs)
      = getAllArgsLoop fetch (mapExtend acc m) rs := by
  rw [getAllArgsLoop, hf]

/-- Unfolding of the argument-resolution loop on a failed fetch. -/
theorem getAllArgsLoop_cons_err
    (fetch : ArgumentsReference → Except LookupError (List (String × String)))
    (acc : List (String × String)) (r : ArgumentsReference)
    (rs : List ArgumentsReference) (e : LookupError)
    (hf : fetch r = Except.error e) :
    getAllArgsLoop fetch acc (r :: rs)
      = (if r.optional then getAllArgsLoop fetch acc rs
         else Except.error r.name) := by
  rw [getAllArgsLoop, hf]

/-- Success of the argument-resolution loop: every remaining reference either
fetches successfully or is optional. -/
theorem getAllArgsLoop_ok
    (fetch : ArgumentsReference → Except LookupError (List (String × String)))
    (rs : List ArgumentsReference) :
    ∀ acc, exceptOk (getAllArgsLoop fetch acc rs)
      = rs.all (fun r => exceptOk (fetch r) || r.optional) := by
  induction rs with
  | nil => intro acc; rfl
  | cons r rest ih =>
      intro acc
      cases hf : fetch r with
      | ok m =>
          rw [getAllArgsLoop_cons_ok fetch acc r rest m hf, ih, List.all_cons, hf]
          simp [exceptOk]
      | error e =>
          rw [getAllArgsLoop_cons_err fetch acc r rest e hf, List.all_cons, hf]
          by_cases ho : r.optional
          · rw [if_pos ho, ih]
            simp [exceptOk, ho]
          · rw [if_neg ho]
            rw [Bool.not_eq_true] at ho
            simp [exceptOk, ho]

/-- Sample instance for C5: live (no deletion timestamp), finalizer present,
status with observed generation 5, but metadata.generation absent. -/
def c5Inst : KclInstance :=
  { metadata := { metaBase with generation := none }
  , spec := specBase
  , status := some { defaultStatus with observed_generation := 5 } }

/-- C5 counterexample: on an instance whose `metadata.generation` is absent
(and whose status has a non-zero observed generation), `determine_action`
returns Update, while the claim places the absent-generation case under
NoOp. -/
theorem c5_counterexample :
    c5Inst.metadata.generation = none
    ∧ c5Inst.metadata.deletion_timestamp = none
    ∧ finalizersEmpty c5Inst = false
    ∧ determine_action c5Inst = KclInstanceAction.Update := by
  refine ⟨rfl, rfl, rfl, ?_⟩
  decide

/-- C5 (amended): `determine_action` returns Delete iff the deletion
timestamp is set; otherwise Create iff the finalizers list is absent or
empty; otherwise, when a status is present, Update iff the status's observed
generation differs from `metadata.generation` with an absent generation
treated as 0, and NoOp when they agree; and NoOp when status is absent. -/
theorem c5_determine_action_characterization (inst : KclInstance) :
    (inst.metadata.deletion_timestamp.isSome = true →
      determine_action inst = KclInstanceAction.Delete)
    ∧ (inst.metadata.deletion_timestamp = none → finalizersEmpty inst = true →
        determine_action inst = KclInstanceAction.Create)
    ∧ (inst.metadata.deletion_timestamp = none → finalizersEmpty inst = false →
        ∀ st, inst.status = some st →
          (st.observed_generation ≠ inst.metadata.generation.getD 0 →
            determine_action inst = KclInstanceAction.Update)
          ∧ (st.observed_generation = inst.metadata.generation.getD 0 →
            determine_action inst = KclInstanceAction.NoOp))
    ∧ (inst.metadata.deletion_timestamp = none → finalizersEmpty inst = false →
        inst.status = none → determine_action inst = KclInstanceAction.NoOp) := by
  refine ⟨?_, ?_, ?_, ?_⟩
  · intro h
    simp [determine_action, h]
  · intro h1 h2
    simp [determine_action, h1, h2]
  · intro h1 h2 st hst
    constructor
    · intro hne
      simp [determine_action, h1, h2, hst, hne]
    · intro heq
      simp [determine_action, h1, h2, hst, heq]
  · intro h1 h2 h3
    simp [determine_action, h1, h2, h3]

/-- C5 witness: the characterization applied to the sample instance yields
the Update branch. -/
theorem c5_determine_action_characterization_witness :
    determine_action c5Inst = KclInstanceAction.Update := by
  have h := (c5_determine_action_characterization c5Inst).2.2.1 rfl rfl
    { defaultStatus with observed_generation := 5 } rfl
  exact h.1 (by decide)

/-- Sample instance for C1: a previous pass left identity gvkA in the
status inventory. -/
def c1Inst : KclInstance :=
  { metadata := metaBase
  , spec := specBase
  , status := some { defaultStatus with inventory := [gvkA] } }

/-- C1 counterexample: a pass that applies only gvkB writes an inventory
still containing gvkA from the previous status, so the written inventory is
not a fresh set of exactly the identities applied in the pass. -/
theorem c1_counterexample :
    gvkA ∈ writtenInventory (process_instance c1Inst c1Inst [gvkB])
    ∧ gvkA ∉ [gvkB] := by
  constructor
  · decide
  · decide

/-- C1 (amended): on a successful, non-suspended pass the written inventory
is the previous status inventory extended with the identities applied in the
pass — set union of old and new, with no pruning of stale identities. -/
theorem c1_inventory_union (inst current : KclInstance) (applied : List Gvk)
    (ns : String) (hs : inst.spec.suspend.getD false = false)
    (hn : inst.metadata.namespc = some ns) (g : Gvk) :
    g ∈ writtenInventory (process_instance inst current applied)
      ↔ g ∈ (inst.status.getD defaultStatus).inventory ∨ g ∈ applied := by
  have h1 : process_instance inst current applied
      = some (update_status current
          { inst.status.getD defaultStatus with
            inventory := applied.foldl inventory_insert
              (inst.status.getD defaultStatus).inventory }
          (inst.metadata.generation.getD 0)) := by
    unfold process_instance
    rw [hs, hn]
    rfl
  rw [h1]
  show g ∈ applied.foldl inventory_insert (inst.status.getD defaultStatus).inventory
    ↔ _
  exact mem_foldl_inventory_insert applied _ g

/-- C1 witness: with the sample instance, an identity of the previous
inventory is still a member of the written inventory. -/
theorem c1_inventory_union_witness :
    gvkB ∈ writtenInventory (process_instance c1Inst c1Inst [gvkB]) :=
  (c1_inventory_union c1Inst c1Inst [gvkB] "app" rfl rfl gvkB).mpr
    (Or.inr (List.mem_singleton.mpr rfl))

/-- Sample artifact for C4, advertising revision abc. -/
def c4Art : FluxSourceArtefact :=
  FluxSourceArtefact.git
    { url := "http://src/ns/g1/abc.tar.gz", revision := "abc"
    , path := "gitrepository/ns/g1/abc.tar.gz", lastUpdateTime := "t"
    , digest := none }

/-- Sample instance for C4, with no previous status. -/
def c4Inst : KclInstance :=
  { metadata := metaBase, spec := specBase, status := none }

/-- C4 counterexample: a successful pass over an instance whose artifact has
revision abc writes a status whose lastAppliedRevision is still absent — the
pipeline never writes the artifact revision into the status. -/
theorem c4_counterexample :
    FluxSourceArtefact.revision c4Art = "abc"
    ∧ (writtenStatus (process_instance c4Inst c4Inst [gvkA])).map
        (fun st => st.last_applied_revision) = some none
    ∧ (none : Option String) ≠ some (FluxSourceArtefact.revision c4Art) := by
  refine ⟨rfl, rfl, ?_⟩
  decide

/-- C4 (amended): on a successful, non-suspended pass the written status has
observedGeneration equal to `metadata.generation` (0 when absent), and
lastAppliedRevision carried over unchanged from the previous status (absent
when there was none) rather than set to the artifact revision. -/
theorem c4_status_fields (inst current : KclInstance) (applied : List Gvk)
    (ns : String) (hs : inst.spec.suspend.getD false = false)
    (hn : inst.metadata.namespc = some ns) :
    (writtenStatus (process_instance inst current applied)).map
        (fun st => st.observed_generation)
      = some (inst.metadata.generation.getD 0)
    ∧ (writtenStatus (process_instance inst current applied)).map
        (fun st => st.last_applied_revision)
      = some ((inst.status.getD defaultStatus).last_applied_revision) := by
  have h1 : process_instance inst current applied
      = some (update_status current
          { inst.status.getD defaultStatus with
            inventory := applied.foldl inventory_insert
              (inst.status.getD defaultStatus).inventory }
          (inst.metadata.generation.getD 0)) := by
    unfold process_instance
    rw [hs, hn]
    rfl
  rw [h1]
  exact ⟨rfl, rfl⟩

/-- C4 witness: the amended claim evaluated on the sample instance, whose
generation is 1 and whose previous status is absent. -/
theorem c4_status_fields_witness :
    (writtenStatus (process_instance c4Inst c4Inst [gvkA])).map
        (fun st => st.observed_generation) = some 1
    ∧ (writtenStatus (process_instance c4Inst c4Inst [gvkA])).map
        (fun st => st.last_applied_revision) = some none :=
  ⟨(c4_status_fields c4Inst c4Inst [gvkA] "app" rfl rfl).1,
   (c4_status_fields c4Inst c4Inst [gvkA] "app" rfl rfl).2⟩

/-- Sample suspended instance for C2: suspend true, no finalizers yet. -/
def c2Inst : KclInstance :=
  { metadata := { metaBase with finalizers := none }
  , spec := { specBase with suspend := some true }
  , status := none }

/-- Cluster environment resolving nothing. -/
def envEmpty : ClusterEnv :=
  { resolve := fun _ => false, getObj := fun _ => none }

/-- C2 counterexample: a suspended instance with no finalizers is classified
Create, and the Create branch issues the finalizer patch before the suspend
check inside the pipeline is reached. -/
theorem c2_counterexample :
    c2Inst.spec.suspend = some true
    ∧ WriteAction.patchFinalizer [finalizerString]
        ∈ reconcile_writes c2Inst envEmpty [] := by
  constructor
  · rfl
  · decide

/-- C2 (amended): while suspend is true no pipeline write — manifest apply,
status patch or object deletion — is issued in any branch, but the Create
branch still patches the finalizer on (and publishes events), and the Delete
branch still patches the finalizer list empty (and publishes events). -/
theorem c2_suspend_no_pipeline_writes (inst : KclInstance) (env : ClusterEnv)
    (applied : List Gvk) (hs : inst.spec.suspend.getD false = true) :
    ∀ a ∈ reconcile_writes inst env applied, isPipelineWrite a = false := by
  intro a ha
  have hp : process_instance_writes inst applied = [] := by
    unfold process_instance_writes
    rw [hs]
    rfl
  have hc : cleanup_writes inst env = [] := by
    unfold cleanup_writes
    rw [hs]
    rfl
  unfold reconcile_writes at ha
  cases hdet : determine_action inst
  case Create =>
      rw [hdet, hp] at ha
      simp only [List.nil_append, List.mem_cons, List.not_mem_nil,
        or_false] at ha
      rcases ha with rfl | rfl | rfl <;> rfl
  case Update =>
      rw [hdet, hp] at ha
      simp at ha
  case Delete =>
      rw [hdet, hc] at ha
      simp only [List.nil_append, List.mem_cons, List.not_mem_nil,
        or_false] at ha
      rcases ha with rfl | rfl <;> rfl
  case NoOp =>
      rw [hdet] at ha
      simp at ha

/-- C2 witness: the amended claim applied to the suspended sample instance,
specialized to an action of its Create branch. -/
theorem c2_suspend_no_pipeline_writes_witness :
    isPipelineWrite (WriteAction.publishEvent "Creating") = false :=
  c2_suspend_no_pipeline_writes c2Inst envEmpty [] rfl
    (WriteAction.publishEvent "Creating") (by decide)

/-- Sample non-optional ConfigMap reference for C3. -/
def c3Ref : ArgumentsReference :=
  { name := "r", kind := ArgumentsReferenceKind.ConfigMap
  , arguments_key := none, target_path := none, optional := false }

/-- Sample instance for C3: empty inline arguments and one argumentsFrom
reference. -/
def c3Inst : KclInstance :=
  { metadata := metaBase
  , spec := { specBase with
              config := { configEmpty with arguments_from := [c3Ref] } }
  , status := none }

/-- Fetch environment for C3 in which the reference resolves to one pair. -/
def c3Fetch : ArgumentsReference → Except LookupError (List (String × String)) :=
  fun _ => Except.ok [("k", "v")]

/-- C3 counterexample: the compiler invocation of the render pass carries an
empty argument map although resolving argumentsFrom would merge in the pair
k/v — render never consults argumentsFrom. -/
theorem c3_counterexample :
    (render_invocation c3Inst "w").args = []
    ∧ get_all_args c3Fetch c3Inst = Except.ok [("k", "v")]
    ∧ mapLookup (render_invocation c3Inst "w").args "k"
        ≠ mapLookup [("k", "v")] "k" := by
  refine ⟨rfl, rfl, ?_⟩
  decide

/-- C3 (amended): the argument map passed to the compiler invocation equals
`spec.config.arguments` exactly, and is unchanged under any replacement of
`spec.config.argumentsFrom` — the references are never resolved by the
render pass. -/
theorem c3_render_args (inst : KclInstance) (wd : String)
    (l : List ArgumentsReference) :
    (render_invocation inst wd).args = inst.spec.config.arguments
    ∧ render_invocation
        { inst with spec := { inst.spec with
            config := { inst.spec.config with arguments_from := l } } } wd
      = render_invocation inst wd :=
  ⟨rfl, rfl⟩

/-- Concrete status write for the C6 witness: the write a pass over the C4
sample instance issues. -/
def c6Write : StatusWrite :=
  update_status c4Inst { defaultStatus with inventory := [gvkA] } 1

/-- C6 counterexample: the status write issued by a pass has patch content
type Merge, not the server-side Apply the claim states. -/
theorem c6_counterexample :
    (process_instance c4Inst c4Inst [gvkA]).map (fun w => w.patchType)
        = some PatchType.merge
    ∧ PatchType.merge ≠ PatchType.apply := by
  refine ⟨rfl, ?_⟩
  decide

/-- C6 (amended): every status write issued by a pass targets the status
subresource, is a merge patch (not server-side apply) whose params carry
field manager kcl-instance-controller and strict validation, and its body is
the freshly fetched object (same metadata and spec) with only the status
replaced. -/
theorem c6_status_write (inst current : KclInstance) (applied : List Gvk)
    (w : StatusWrite)
    (h : process_instance inst current applied = some w) :
    w.subresource = "status"
    ∧ w.patchType = PatchType.merge
    ∧ w.fieldManager = some OPERATOR_MANAGER
    ∧ w.validationStrict = true
    ∧ w.body.metadata = current.metadata
    ∧ w.body.spec = current.spec := by
  unfold process_instance at h
  by_cases hs : inst.spec.suspend.getD false = true
  · rw [hs] at h
    simp at h
  · rw [Bool.not_eq_true] at hs
    rw [hs] at h
    by_cases hn : inst.metadata.namespc.isNone = true
    · rw [hn] at h
      simp at h
    · rw [Bool.not_eq_true] at hn
      rw [hn] at h
      simp only [Bool.false_eq_true, if_false, Option.some.injEq] at h
      subst h
      exact ⟨rfl, rfl, rfl, rfl, rfl, rfl⟩

/-- C6 witness: the amended claim evaluated on the concrete write of a pass
over the sample instance. -/
theorem c6_status_write_witness :
    c6Write.patchType = PatchType.merge
    ∧ c6Write.body.metadata = c4Inst.metadata :=
  ⟨(c6_status_write c4Inst c4Inst [gvkA] c6Write (by decide)).2.1,
   (c6_status_write c4Inst c4Inst [gvkA] c6Write (by decide)).2.2.2.2.1⟩

/-- Sample document for C7 carrying an unrelated label. -/
def c7Obj : DynamicObject :=
  { types := some { api_version := "v1", kind := "Service" }
  , metadata := { metaBase with labels := some [("team", "x")] } }

/-- Sample cluster object metadata for C7, lacking the manager label. -/
def c7Meta : ObjectMeta :=
  { metaBase with labels := some [("team", "x")] }

/-- Cluster environment for C7 in which everything resolves and every GET
returns the unmanaged metadata. -/
def c7Env : ClusterEnv :=
  { resolve := fun _ => true, getObj := fun _ => some c7Meta }

/-- C7: every object sent to server-side apply carries the manager label
with value kcl-instance-controller while all other labels keep their values,
and cleanup issues no DELETE for an inventory item whose GET succeeds on an
object lacking the manager label. -/
theorem c7_manager_label (obj : DynamicObject) (env : ClusterEnv) (g : Gvk)
    (meta : ObjectMeta) (h1 : env.resolve g = true)
    (h2 : env.getObj g = some meta)
    (h3 : is_managed_by OPERATOR_MANAGER meta = false) :
    mapLookup (((applyObj obj).metadata.labels).getD []) managedByKey
        = some OPERATOR_MANAGER
    ∧ (∀ k, k ≠ managedByKey →
        mapLookup (((applyObj obj).metadata.labels).getD []) k
          = mapLookup ((obj.metadata.labels).getD []) k)
    ∧ delete_resource_writes env g = [] := by
  refine ⟨?_, ?_, ?_⟩
  · cases hl : obj.metadata.labels with
    | some ls =>
        simp [applyObj, patch_labels, hl, mapLookup_mapInsertKV_self]
    | none =>
        simp [applyObj, patch_labels, hl, mapLookup_mapInsertKV_self]
  · intro k hk
    cases hl : obj.metadata.labels with
    | some ls =>
        simp [applyObj, patch_labels, hl, mapLookup_mapInsertKV_ne ls
          managedByKey OPERATOR_MANAGER k hk]
    | none =>
        simp [applyObj, patch_labels, hl, mapLookup_mapInsertKV_ne []
          managedByKey OPERATOR_MANAGER k hk, mapLookup]
  · simp [delete_resource_writes, h1, h2, h3]

/-- C7 witness: on the concrete document the patched labels carry the
manager value, and on the concrete unmanaged environment no DELETE is
issued. -/
theorem c7_manager_label_witness :
    mapLookup (((applyObj c7Obj).metadata.labels).getD []) managedByKey
        = some OPERATOR_MANAGER
    ∧ delete_resource_writes c7Env gvkA = [] :=
  ⟨(c7_manager_label c7Obj c7Env gvkA c7Meta rfl rfl (by decide)).1,
   (c7_manager_label c7Obj c7Env gvkA c7Meta rfl rfl (by decide)).2.2⟩

/-- Sample optional Secret reference for C8. -/
def c8Ref : ArgumentsReference :=
  { name := "r", kind := ArgumentsReferenceKind.Secret
  , arguments_key := none, target_path := none, optional := true }

/-- Sample instance for C8: one inline argument and one optional
reference. -/
def c8Inst : KclInstance :=
  { metadata := metaBase
  , spec := { specBase with
              config := { configEmpty with
                          arguments := [("a", "1")]
                          , arguments_from := [c8Ref] } }
  , status := none }

/-- Fetch environment for C8 failing every lookup with a non-not-found
error. -/
def c8Fetch : ArgumentsReference → Except LookupError (List (String × String)) :=
  fun _ => Except.error LookupError.other

/-- C8 counterexample: the lookup of the optional reference fails with an
error other than not-found, yet resolution succeeds — the code suppresses
every error for optional references, not only not-found. -/
theorem c8_counterexample :
    c8Ref.optional = true
    ∧ c8Fetch c8Ref = Except.error LookupError.other
    ∧ get_all_args c8Fetch c8Inst = Except.ok [("a", "1")] :=
  ⟨rfl, rfl, rfl⟩

/-- C8 (amended): argument resolution succeeds iff every argumentsFrom
reference either fetches successfully or is optional — an optional reference
suppresses every lookup error (not-found or otherwise), while a non-optional
reference fails resolution on every lookup error. -/
theorem c8_optional_suppresses_all
    (fetch : ArgumentsReference → Except LookupError (List (String × String)))
    (inst : KclInstance) :
    exceptOk (get_all_args fetch inst)
      = inst.spec.config.arguments_from.all
          (fun r => exceptOk (fetch r) || r.optional) :=
  getAllArgsLoop_ok fetch inst.spec.config.arguments_from
    inst.spec.config.arguments

/-- C9: build_url with no override host is the identity on parsed URLs, and
with an override host it keeps the original path and query while taking
scheme and authority from the override. -/
theorem c9_build_url :
    (∀ u : ParsedUrl, build_url u none = u)
    ∧ ∀ u h : ParsedUrl,
        (build_url u (some h)).path = u.path
        ∧ (build_url u (some h)).query = u.query
        ∧ (build_url u (some h)).scheme = h.scheme
        ∧ (build_url u (some h)).authority = h.authority :=
  ⟨fun _ => rfl, fun _ _ => ⟨rfl, rfl, rfl, rfl⟩⟩

/-- C10: the finalizer add operation patches metadata.finalizers to exactly
the one-element operator list and the delete operation patches it to the
empty list, so any finalizer previously present that differs from the
operator's is discarded by either operation. -/
theorem c10_finalizer_replaces (meta : ObjectMeta) (f : String)
    (hf : f ≠ finalizerString) :
    (Finalizer.add meta).finalizers = some [finalizerString]
    ∧ (Finalizer.delete meta).finalizers = some []
    ∧ f ∉ ((Finalizer.add meta).finalizers.getD [])
    ∧ f ∉ ((Finalizer.delete meta).finalizers.getD []) := by
  refine ⟨rfl, rfl, ?_, ?_⟩
  · simp [Finalizer.add, patch_finalizer]
    exact hf
  · simp [Finalizer.delete, patch_finalizer]

/-- Sample metadata for C10 carrying a foreign finalizer. -/
def c10Meta : ObjectMeta :=
  { metaBase with finalizers := some ["other.example.com/fin"] }

/-- C10 witness: on the sample metadata the add operation leaves exactly the
operator finalizer and drops the foreign one. -/
theorem c10_finalizer_replaces_witness :
    (Finalizer.add c10Meta).finalizers = some [finalizerString]
    ∧ "other.example.com/fin" ∉ ((Finalizer.add c10Meta).finalizers.getD []) :=
  ⟨(c10_finalizer_replaces c10Meta "other.example.com/fin" (by decide)).1,
   (c10_finalizer_replaces c10Meta "other.example.com/fin" (by decide)).2.2.1⟩

end FluxKclOperator
